import Mathlib

/-!
Verification of `local_flow/rec/src/deploy_model.py`.

The module under verification is a deployment script with three functions:
`tf_model_to_tar`, `deploy_tf_model` and `deploy_model`.  We embed them
shallowly: the local filesystem is a list of existing paths, every external
SDK call (tensorflow save, tar archiving, `s3.put`, SageMaker model creation,
endpoint deployment, estimator fitting, inference) is mediated by an
environment record that supplies the call's response or an injected error,
and each embedded function returns the ordered trace of external calls it
issued together with its outcome.

`'...{}...'.format(int(...))` in the source renders a natural number in
decimal, which is `Nat.repr` in Lean; `decDigits` below is an explicit
most-significant-digit-first description of it used to prove it injective.
-/

namespace DeployModel

/-- Most-significant-first decimal digit characters of a natural number. -/
def decDigits (n : Nat) : List Char :=
  if _h : n < 10 then [Nat.digitChar n]
  else decDigits (n / 10) ++ [Nat.digitChar (n % 10)]
decreasing_by exact Nat.div_lt_self (by omega) (by omega)

/-- The decoding fold inverting `decDigits`. -/
def decVal (l : List Char) : Nat :=
  l.foldl (fun a c => a * 10 + (c.toNat - 48)) 0

/-- `deploy_tf_model`'s endpoint name (source line 72):
`'intent-{}-endpoint'.format(int(round(time.time() * 1000)))`. -/
def tfEndpointName (tMs : Nat) : String :=
  "intent-" ++ Nat.repr tMs ++ "-endpoint"

/-- `deploy_model`'s endpoint name (source line 115):
`'rec-knn-{}-endpoint'.format(int(round(time.time() * 1000)))`. -/
def knnEndpointName (tMs : Nat) : String :=
  "rec-knn-" ++ Nat.repr tMs ++ "-endpoint"

/-- Python's `str.split(sep)` for a single-character separator: split on every
separator occurrence, keeping empty pieces; `''` splits to `['']`. -/
def splitOnChar (c : Char) : List Char → List (List Char)
  | [] => [[]]
  | x :: xs =>
    match splitOnChar c xs with
    | [] => [[]]
    | y :: ys => if x = c then [] :: y :: ys else (x :: y) :: ys

/-- Python's `str.split(sep)` on strings. -/
def pySplit (s : String) (c : Char) : List String :=
  (splitOnChar c s.data).map String.mk

/-- Boolean "p is a leading piece of s" on strings, via character lists. -/
def strStartsWith (p s : String) : Bool :=
  decide (p.data = s.data.take p.data.length)

/-- Create a path (idempotent, as `tf_model.save` / `tarfile.open` overwrite). -/
def fsCreate (fs : List String) (p : String) : List String :=
  if p ∈ fs then fs else p :: fs

/-- `os.remove`: delete one path. -/
def fsRemove (fs : List String) (p : String) : List String :=
  fs.filter (fun q => !(q == p))

/-- `shutil.rmtree`: delete a directory and everything below it. -/
def fsRmtree (fs : List String) (d : String) : List String :=
  fs.filter (fun q => !(q == d || strStartsWith (d ++ "/") q))

/-- `q` lies in the directory tree rooted at `d`. -/
def inTree (d q : String) : Prop :=
  q = d ∨ strStartsWith (d ++ "/") q = true

/-- The external operations the two deployment functions can issue, in the
order they appear in the source. -/
inductive ExtCall where
  | saveModel (dir : String)
  | archive (tar : String)
  | s3Put (key : String)
  | createModel (modelDataPath : String)
  | deployEndpoint (name : String)
  | predict (endpoint : String)
  | createEstimator (outputPath : String)
  | setHyper (k feature_dim sample_size : Nat)
  | fit (s3data : String)
deriving DecidableEq, Repr

/-- Python-level failures: an exception raised by an external call (carrying
the call site and the message), a failed `assert`, or an out-of-range index. -/
inductive PyError where
  | sdkError (call msg : String)
  | assertionError
  | indexError
deriving DecidableEq, Repr

/-- `"intent-model-{}/1".format(run_id)` (source line 33). -/
def savedModelName (run_id : Nat) : String :=
  "intent-model-" ++ Nat.repr run_id ++ "/1"

/-- `'model-{}.tar.gz'.format(run_id)` (source line 34). -/
def localTarName (run_id : Nat) : String :=
  "model-" ++ Nat.repr run_id ++ ".tar.gz"

/-- `model_name.split('/')[0]` (source line 42), the tree `shutil.rmtree`
removes. -/
def modelDirRoot (run_id : Nat) : String :=
  ((pySplit (savedModelName run_id) '/').headD "")

/-- Responses and injected failures of the external world as seen by
`deploy_tf_model`.  A `some msg` in an error slot means the corresponding
call raises an exception with that message. -/
structure TfEnv where
  timeMs : Nat
  putUrl : String
  predictions : List (List Int)
  saveErr : Option String
  archiveErr : Option String
  putErr : Option String
  createErr : Option String
  deployErr : Option String
  predictErr : Option String

/-- Responses and injected failures seen by `deploy_model` (the KNN path).
`labels` is `result['predictions'][0]['labels']` of the endpoint response. -/
structure KnnEnv where
  timeMs : Nat
  labels : List Int
  hyperErr : Option String
  fitErr : Option String
  deployErr : Option String
  predictErr : Option String

/-- The gensim `KeyedVectors` interface the source uses.  The neighbor
structure is abstract data owned by the external library; vector payloads are
opaque and not modeled. -/
structure KeyedVectors where
  index_to_key : List String
  key_to_index : String → Int
  similar_by_key : String → Nat → List (String × Int)

/-- `tf_model_to_tar` (source lines 24-44). -/
def tf_model_to_tar (fs : List String) (run_id : Nat)
    (saveErr archiveErr : Option String) :
    List ExtCall × List String × Except PyError String :=
  let model_name := savedModelName run_id
  let local_tar_name := localTarName run_id
  match saveErr with
  | some m => ([.saveModel model_name], fs, .error (.sdkError "tf_model.save" m))
  | none =>
    let fs1 := fsCreate (fsCreate fs (modelDirRoot run_id)) model_name
    match archiveErr with
    | some m =>
      ([.saveModel model_name, .archive local_tar_name], fs1,
        .error (.sdkError "tarfile.add" m))
    | none =>
      let fs2 := fsCreate fs1 local_tar_name
      let fs3 := fsRmtree fs2 (modelDirRoot run_id)
      ([.saveModel model_name, .archive local_tar_name], fs3, .ok local_tar_name)

/-- `deploy_tf_model` (source lines 47-99). -/
def deploy_tf_model (env : TfEnv) (fs : List String) (run_id : Nat) :
    List ExtCall × List String × Except PyError (String × String) :=
  match tf_model_to_tar fs run_id env.saveErr env.archiveErr with
  | (tr, fs1, .error e) => (tr, fs1, .error e)
  | (tr, fs1, .ok local_tar_name) =>
    match env.putErr with
    | some m => (tr ++ [.s3Put local_tar_name], fs1, .error (.sdkError "s3.put" m))
    | none =>
      let model_s3_path := env.putUrl
      let fs2 := fsRemove fs1 local_tar_name
      let endpoint_name := tfEndpointName env.timeMs
      match env.createErr with
      | some m =>
        (tr ++ [.s3Put local_tar_name, .createModel model_s3_path], fs2,
          .error (.sdkError "TensorFlowModel" m))
      | none =>
        match env.deployErr with
        | some m =>
          (tr ++ [.s3Put local_tar_name, .createModel model_s3_path,
            .deployEndpoint endpoint_name], fs2, .error (.sdkError "model.deploy" m))
        | none =>
          match env.predictErr with
          | some m =>
            (tr ++ [.s3Put local_tar_name, .createModel model_s3_path,
              .deployEndpoint endpoint_name, .predict endpoint_name], fs2,
              .error (.sdkError "predictor.predict" m))
          | none =>
            let fullTr := tr ++ [.s3Put local_tar_name, .createModel model_s3_path,
              .deployEndpoint endpoint_name, .predict endpoint_name]
            if env.predictions = [] then
              (fullTr, fs2, .error .assertionError)
            else
              (fullTr, fs2, .ok (model_s3_path, endpoint_name))

/-- Python `s.strip('/')` on character lists. -/
def stripSlash (l : List Char) : List Char :=
  ((l.dropWhile (fun c => c == '/')).reverse.dropWhile (fun c => c == '/')).reverse

/-- `os.path.join` on POSIX: accumulated left part, then remaining
components. -/
def osPathJoin : List Char → List (List Char) → List Char
  | acc, [] => acc
  | acc, p :: ps =>
    if p.head? = some '/' then osPathJoin p ps
    else if acc = [] ∨ acc.getLast? = some '/' then osPathJoin (acc ++ p) ps
    else osPathJoin (acc ++ '/' :: p) ps

/-- Source lines 121-124: `urlparse` (netloc = text between `s3://` and the
next `/`, path = the rest), `strip('/')`, `split('/')[:-1]`,
`u's3://%s' % os.path.join(bucket, *prefix)`. -/
def deployModelTargetPath (vectors_s3_path : String) : String :=
  let rest := vectors_s3_path.data.drop 5
  let bucket := rest.takeWhile (fun c => !(c == '/'))
  let path := rest.dropWhile (fun c => !(c == '/'))
  let segs := (splitOnChar '/' (stripSlash path)).dropLast
  String.mk ("s3://".data ++ osPathJoin bucket segs)

/-- Line 173: the local gensim reference ranking
`[model.key_to_index[_[0]] for _ in model.similar_by_key(test_key, topn=k-1)]`. -/
def gensimPreds (model : KeyedVectors) (test_key : String) (k : Nat) : List Int :=
  (model.similar_by_key test_key (k - 1)).map (fun p => model.key_to_index p.1)

/-- `deploy_model` (source lines 102-190). -/
def deploy_model (env : KnnEnv) (vectors_s3_path : String) (model : KeyedVectors)
    (k feature_dim sample_size : Nat) :
    List ExtCall × Except PyError String :=
  let endpoint_name := knnEndpointName env.timeMs
  let target := deployModelTargetPath vectors_s3_path
  let tr0 : List ExtCall :=
    [.createEstimator target, .setHyper k feature_dim sample_size]
  match env.hyperErr with
  | some m => (tr0, .error (.sdkError "set_hyperparameters" m))
  | none =>
    match env.fitErr with
    | some m => (tr0 ++ [.fit vectors_s3_path], .error (.sdkError "fit" m))
    | none =>
      match env.deployErr with
      | some m =>
        (tr0 ++ [.fit vectors_s3_path, .deployEndpoint endpoint_name],
          .error (.sdkError "deploy" m))
      | none =>
        match model.index_to_key with
        | [] =>
          (tr0 ++ [.fit vectors_s3_path, .deployEndpoint endpoint_name],
            .error .indexError)
        | test_key :: _ =>
          match env.predictErr with
          | some m =>
            (tr0 ++ [.fit vectors_s3_path, .deployEndpoint endpoint_name,
              .predict endpoint_name], .error (.sdkError "predictor.predict" m))
          | none =>
            let preds := gensimPreds model test_key k
            let result := env.labels.reverse.drop 1
            let fullTr := tr0 ++ [.fit vectors_s3_path,
              .deployEndpoint endpoint_name, .predict endpoint_name]
            if result = preds then (fullTr, .ok endpoint_name)
            else (fullTr, .error .assertionError)

/-- The canonical complete call sequence of `deploy_tf_model`. -/
def fullTfTrace (env : TfEnv) (run_id : Nat) : List ExtCall :=
  [.saveModel (savedModelName run_id), .archive (localTarName run_id),
   .s3Put (localTarName run_id), .createModel env.putUrl,
   .deployEndpoint (tfEndpointName env.timeMs),
   .predict (tfEndpointName env.timeMs)]

/-- The canonical complete call sequence of `deploy_model`. -/
def fullKnnTrace (env : KnnEnv) (vectors_s3_path : String)
    (k feature_dim sample_size : Nat) : List ExtCall :=
  [.createEstimator (deployModelTargetPath vectors_s3_path),
   .setHyper k feature_dim sample_size, .fit vectors_s3_path,
   .deployEndpoint (knnEndpointName env.timeMs),
   .predict (knnEndpointName env.timeMs)]

/-- `'/'.join` of components (what both naming conventions produce). -/
def joinSlash : List (List Char) → List Char
  | [] => []
  | [x] => x
  | x :: y :: ys => x ++ '/' :: joinSlash (y :: ys)

/-- An s3 URL `s3://<bucket>/<c₁>/.../<cₙ>` assembled from its pieces. -/
def mkS3Url (bucket : String) (comps : List String) : String :=
  String.mk ("s3://".data ++ bucket.data ++ '/' :: joinSlash (comps.map String.data))

/-- A fully successful environment for `deploy_tf_model`. -/
def envTfOk : TfEnv :=
  ⟨1700000000000, "s3://bucket/model-3.tar.gz", [[1]], none, none, none, none, none, none⟩

/-- Like `envTfOk` but with a different (still non-empty) inference result. -/
def envTfOther : TfEnv :=
  ⟨1700000000000, "s3://bucket/model-3.tar.gz", [[2]], none, none, none, none, none, none⟩

/-- An environment whose `s3.put` raises. -/
def envTfPutFail : TfEnv :=
  ⟨1700000000000, "s3://bucket/model-3.tar.gz", [[1]], none, none, some "boom", none, none, none⟩

/-- A successful KNN environment whose response agrees with the local
reference after the reverse-and-drop transform. -/
def envKnnOk : KnnEnv :=
  ⟨1700000000000, [9, 7, 42], none, none, none, none⟩

/-- A successful KNN environment with an empty `labels` response. -/
def envKnnEmpty : KnnEnv :=
  ⟨0, [], none, none, none, none⟩

/-- A successful KNN environment with a three-element `labels` response. -/
def envKnnShort : KnnEnv :=
  ⟨0, [1, 2, 3], none, none, none, none⟩

/-- A concrete `KeyedVectors` whose neighbor list for any query is
`[("b", 0), ("c", 0)]`. -/
def modelBC : KeyedVectors :=
  ⟨["a", "b", "c"], fun s => if s = "b" then 7 else if s = "c" then 9 else 0,
   fun _ _ => [("b", 0), ("c", 0)]⟩

/-- A concrete `KeyedVectors` with a single key and empty neighbor lists. -/
def modelSolo : KeyedVectors :=
  ⟨["a"], fun _ => 0, fun _ _ => []⟩

/-- A concrete `KeyedVectors` with one neighbor. -/
def modelOne : KeyedVectors :=
  ⟨["a", "b"], fun s => if s = "b" then 1 else 0, fun _ _ => [("b", 0)]⟩

/-! ### Theorems -/

theorem decDigits_lt (n : Nat) (h : n < 10) : decDigits n = [Nat.digitChar n] := by
  rw [decDigits, dif_pos h]

theorem decDigits_ge (n : Nat) (h : ¬ n < 10) :
    decDigits n = decDigits (n / 10) ++ [Nat.digitChar (n % 10)] := by
  rw [decDigits, dif_neg h]

theorem toDigitsCore_eq_decDigits :
    ∀ (f n : Nat) (l : List Char), n < f →
      Nat.toDigitsCore 10 f n l = decDigits n ++ l := by
  intro f
  induction f with
  | zero => intro n l h; omega
  | succ f ih =>
    intro n l h
    simp only [Nat.toDigitsCore]
    by_cases h10 : n / 10 = 0
    · have hn : n < 10 := by omega
      rw [if_pos h10, decDigits_lt n hn, Nat.mod_eq_of_lt hn]
      rfl
    · have hlt : n / 10 < f := by omega
      rw [if_neg h10, ih _ _ hlt, decDigits_ge n (by omega)]
      simp

theorem repr_eq_decDigits (n : Nat) : Nat.repr n = String.mk (decDigits n) := by
  show (Nat.toDigits 10 n).asString = String.mk (decDigits n)
  unfold Nat.toDigits
  rw [toDigitsCore_eq_decDigits (n + 1) n [] (Nat.lt_succ_self n)]
  simp [List.asString]

theorem digitChar_toNat (n : Nat) (h : n < 10) : (Nat.digitChar n).toNat = n + 48 := by
  interval_cases n <;> rfl

theorem foldl_decDigits (n : Nat) :
    ∀ a : Nat, (decDigits n).foldl (fun a c => a * 10 + (c.toNat - 48)) a
      = a * 10 ^ (decDigits n).length + n := by
  induction n using Nat.strong_induction_on with
  | _ n ih =>
    intro a
    by_cases h : n < 10
    · rw [decDigits_lt n h]
      simp [List.foldl, digitChar_toNat n h]
    · rw [decDigits_ge n h]
      rw [List.foldl_append]
      have hdiv : n / 10 < n := Nat.div_lt_self (by omega) (by omega)
      rw [ih (n / 10) hdiv a]
      simp only [List.foldl]
      rw [digitChar_toNat (n % 10) (Nat.mod_lt n (by omega))]
      have hmod : n % 10 + 48 - 48 = n % 10 := by omega
      rw [hmod]
      have hlen : (decDigits (n / 10) ++ [Nat.digitChar (n % 10)]).length
          = (decDigits (n / 10)).length + 1 := by simp
      rw [hlen, pow_succ]
      have := Nat.div_add_mod n 10
      ring_nf
      omega

theorem decVal_decDigits (n : Nat) : decVal (decDigits n) = n := by
  unfold decVal
  rw [foldl_decDigits n 0]
  simp

theorem decDigits_injective {m n : Nat} (h : decDigits m = decDigits n) : m = n := by
  have := decVal_decDigits m
  rw [h, decVal_decDigits n] at this
  omega

theorem repr_injective {m n : Nat} (h : Nat.repr m = Nat.repr n) : m = n := by
  rw [repr_eq_decDigits, repr_eq_decDigits] at h
  exact decDigits_injective (congrArg String.data h)

theorem string_data_append (a b : String) : (a ++ b).data = a.data ++ b.data := by
  cases a; cases b; rfl

theorem string_mk_data (s : String) : String.mk s.data = s := by
  cases s; rfl

theorem string_mk_append (a b : String) : String.mk (a.data ++ b.data) = a ++ b := by
  cases a; cases b; rfl

theorem repr_data (n : Nat) : (Nat.repr n).data = decDigits n := by
  rw [repr_eq_decDigits]

/-- Injectivity of decorating a decimal timestamp with a fixed head and tail. -/
theorem wrap_repr_injective (p s : String) {t₁ t₂ : Nat}
    (h : p ++ Nat.repr t₁ ++ s = p ++ Nat.repr t₂ ++ s) : t₁ = t₂ := by
  have hd := congrArg String.data h
  rw [string_data_append, string_data_append, string_data_append,
    string_data_append] at hd
  rw [List.append_assoc, List.append_assoc] at hd
  have h1 := List.append_cancel_left hd
  have h2 := List.append_cancel_right h1
  have h3 : Nat.repr t₁ = Nat.repr t₂ := by
    rw [repr_eq_decDigits, repr_eq_decDigits] at *
    exact congrArg String.mk h2
  exact repr_injective h3

theorem tfEndpointName_injective {t₁ t₂ : Nat}
    (h : tfEndpointName t₁ = tfEndpointName t₂) : t₁ = t₂ :=
  wrap_repr_injective "intent-" "-endpoint" h

theorem knnEndpointName_injective {t₁ t₂ : Nat}
    (h : knnEndpointName t₁ = knnEndpointName t₂) : t₁ = t₂ :=
  wrap_repr_injective "rec-knn-" "-endpoint" h

theorem splitOnChar_ne_nil (c : Char) (l : List Char) : splitOnChar c l ≠ [] := by
  cases l with
  | nil => simp [splitOnChar]
  | cons x xs =>
    simp only [splitOnChar]
    rcases h : splitOnChar c xs with _ | ⟨y, ys⟩
    · simp
    · by_cases hx : x = c <;> simp [hx]

theorem splitOnChar_no_sep (c : Char) (l : List Char) (h : c ∉ l) :
    splitOnChar c l = [l] := by
  induction l with
  | nil => rfl
  | cons x xs ih =>
    have hx : x ≠ c := fun hc => h (hc ▸ List.mem_cons_self x xs)
    have hxs : c ∉ xs := fun hc => h (List.mem_cons_of_mem x hc)
    simp only [splitOnChar, ih hxs, if_neg hx]

theorem splitOnChar_append_sep (c : Char) (a b : List Char) (h : c ∉ a) :
    splitOnChar c (a ++ c :: b) = a :: splitOnChar c b := by
  induction a with
  | nil =>
    simp only [List.nil_append, splitOnChar]
    rcases hb : splitOnChar c b with _ | ⟨y, ys⟩
    · exact absurd hb (splitOnChar_ne_nil c b)
    · simp
  | cons x xs ih =>
    have hx : x ≠ c := fun hc => h (hc ▸ List.mem_cons_self x xs)
    have hxs : c ∉ xs := fun hc => h (List.mem_cons_of_mem x hc)
    simp only [List.cons_append, splitOnChar, List.append_eq, ih hxs, if_neg hx]

theorem decDigits_no_slash (n : Nat) : '/' ∉ decDigits n := by
  induction n using Nat.strong_induction_on with
  | _ n ih =>
    by_cases h : n < 10
    · rw [decDigits_lt n h]
      interval_cases n <;> decide
    · rw [decDigits_ge n h]
      intro hmem
      rcases List.mem_append.mp hmem with hmem | hmem
      · exact ih (n / 10) (Nat.div_lt_self (by omega) (by omega)) hmem
      · have h10 : n % 10 < 10 := Nat.mod_lt n (by omega)
        rcases List.mem_singleton.mp hmem with hc
        revert hc
        interval_cases h9 : n % 10 <;> decide

theorem mem_fsCreate {fs : List String} {p q : String} :
    q ∈ fsCreate fs p ↔ q = p ∨ q ∈ fs := by
  unfold fsCreate
  by_cases h : p ∈ fs
  · simp only [if_pos h]
    constructor
    · exact Or.inr
    · rintro (rfl | hq) <;> [exact h; exact hq]
  · simp [if_neg h]

theorem mem_fsRemove {fs : List String} {p q : String} :
    q ∈ fsRemove fs p ↔ q ∈ fs ∧ q ≠ p := by
  simp [fsRemove, List.mem_filter]

theorem mem_fsRmtree {fs : List String} {d q : String} :
    q ∈ fsRmtree fs d ↔ q ∈ fs ∧ ¬(q = d ∨ strStartsWith (d ++ "/") q = true) := by
  simp [fsRmtree, List.mem_filter, not_or]

theorem modelDirRoot_eq (rid : Nat) :
    modelDirRoot rid = "intent-model-" ++ Nat.repr rid := by
  unfold modelDirRoot pySplit savedModelName
  have hdata : ("intent-model-" ++ Nat.repr rid ++ "/1").data
      = ("intent-model-".data ++ decDigits rid) ++ '/' :: ['1'] := by
    rw [string_data_append, string_data_append, repr_data]
  have hside : '/' ∉ "intent-model-".data ++ decDigits rid := by
    intro h
    rcases List.mem_append.mp h with h | h
    · revert h; decide
    · exact decDigits_no_slash rid h
  rw [hdata, splitOnChar_append_sep '/' _ _ hside]
  simp only [List.map_cons, List.headD_cons]
  rw [← repr_data]
  exact string_mk_append _ _

theorem tfName_data (t : Nat) :
    (tfEndpointName t).data
      = 'i' :: ("ntent-".data ++ (decDigits t ++ "-endpoint".data)) := by
  rw [tfEndpointName, string_data_append, string_data_append, repr_data]
  have h1 : "intent-".data = 'i' :: "ntent-".data := rfl
  rw [h1]
  simp [List.cons_append, List.append_assoc]

theorem knnName_data (t : Nat) :
    (knnEndpointName t).data
      = 'r' :: ("ec-knn-".data ++ (decDigits t ++ "-endpoint".data)) := by
  rw [knnEndpointName, string_data_append, string_data_append, repr_data]
  have h1 : "rec-knn-".data = 'r' :: "ec-knn-".data := rfl
  rw [h1]
  simp [List.cons_append, List.append_assoc]

/-- C3: endpoint names are the timestamp wrapped in a fixed head and tail:
`deploy_tf_model` uses `intent-<ms>-endpoint` and `deploy_model` uses
`rec-knn-<ms>-endpoint`; invocations with different millisecond timestamps get
different names, and invocations observing the same millisecond get the same
name. -/
theorem endpoint_names_unique_per_ms (t₁ t₂ : Nat) :
    (tfEndpointName t₁ = "intent-" ++ Nat.repr t₁ ++ "-endpoint"
      ∧ knnEndpointName t₁ = "rec-knn-" ++ Nat.repr t₁ ++ "-endpoint")
    ∧ (t₁ ≠ t₂ → tfEndpointName t₁ ≠ tfEndpointName t₂
        ∧ knnEndpointName t₁ ≠ knnEndpointName t₂)
    ∧ (t₁ = t₂ → tfEndpointName t₁ = tfEndpointName t₂
        ∧ knnEndpointName t₁ = knnEndpointName t₂) := by
  refine ⟨⟨rfl, rfl⟩, fun h => ⟨fun he => h (tfEndpointName_injective he),
    fun he => h (knnEndpointName_injective he)⟩, ?_⟩
  intro h
  subst h
  exact ⟨rfl, rfl⟩

theorem endpoint_names_unique_per_ms_witness :
    tfEndpointName 1 ≠ tfEndpointName 2 ∧ knnEndpointName 1 ≠ knnEndpointName 2 :=
  (endpoint_names_unique_per_ms 1 2).2.1 (by decide)

/-- C10: a `deploy_tf_model` endpoint name (head `intent-`) never equals a
`deploy_model` endpoint name (head `rec-knn-`), for any pair of
timestamps. -/
theorem tf_knn_names_disjoint (t₁ t₂ : Nat) :
    tfEndpointName t₁ ≠ knnEndpointName t₂ := by
  intro h
  have hd := congrArg String.data h
  rw [tfName_data, knnName_data] at hd
  simp at hd

/-- C4: `tf_model_to_tar` saves the model directory under
`intent-model-<run_id>/1`, returns exactly `model-<run_id>.tar.gz`, and the
archive name depends only on `run_id` (not on the surrounding filesystem). -/
theorem tf_model_to_tar_naming (fs fs' : List String) (run_id : Nat) :
    (tf_model_to_tar fs run_id none none).1
      = [.saveModel ("intent-model-" ++ Nat.repr run_id ++ "/1"),
         .archive ("model-" ++ Nat.repr run_id ++ ".tar.gz")]
    ∧ (tf_model_to_tar fs run_id none none).2.2
      = .ok ("model-" ++ Nat.repr run_id ++ ".tar.gz")
    ∧ (tf_model_to_tar fs run_id none none).2.2
      = (tf_model_to_tar fs' run_id none none).2.2 :=
  ⟨rfl, rfl, rfl⟩

/-- Complete description of `deploy_model` when every external call succeeds
and the vocabulary is non-empty: the trace is the full canonical sequence, and
the outcome is decided by comparing the reversed-and-beheaded `labels` against
the local gensim ranking. -/
theorem deploy_model_outcome (env : KnnEnv) (path : String) (model : KeyedVectors)
    (k fd ss : Nat) (key : String) (rest : List String)
    (hh : env.hyperErr = none) (hf : env.fitErr = none) (hd : env.deployErr = none)
    (hp : env.predictErr = none) (hidx : model.index_to_key = key :: rest) :
    ((deploy_model env path model k fd ss).2 = .ok (knnEndpointName env.timeMs)
      ↔ env.labels.reverse.drop 1 = gensimPreds model key k)
    ∧ (env.labels.reverse.drop 1 ≠ gensimPreds model key k →
      (deploy_model env path model k fd ss).2 = .error .assertionError)
    ∧ (deploy_model env path model k fd ss).1 = fullKnnTrace env path k fd ss := by
  obtain ⟨t, labels, e1, e2, e3, e4⟩ := env
  dsimp only at hh hf hd hp
  subst hh; subst hf; subst hd; subst hp
  simp only [deploy_model, hidx]
  by_cases hEq : List.drop 1 labels.reverse = gensimPreds model key k
  · rw [if_pos hEq]
    have hEq2 : labels.dropLast.reverse = gensimPreds model key k := by
      simpa using hEq
    exact ⟨by simp [hEq2], fun h => absurd hEq h, rfl⟩
  · rw [if_neg hEq]
    have hEq2 : ¬ labels.dropLast.reverse = gensimPreds model key k := by
      simpa using hEq
    exact ⟨by simp [hEq2], fun _ => rfl, rfl⟩

/-- C1: with the external calls succeeding, `deploy_model` returns the
endpoint name exactly when the endpoint's `labels` list, reversed and with its
first element dropped, equals the local gensim ranking
`[model.key_to_index[key] for the top k-1 neighbors of the first index key]`;
on any mismatch it raises `AssertionError` instead of returning. -/
theorem deploy_model_validation (env : KnnEnv) (path : String) (model : KeyedVectors)
    (k fd ss : Nat) (key : String) (rest : List String)
    (hh : env.hyperErr = none) (hf : env.fitErr = none) (hd : env.deployErr = none)
    (hp : env.predictErr = none) (hidx : model.index_to_key = key :: rest) :
    ((deploy_model env path model k fd ss).2 = .ok (knnEndpointName env.timeMs)
      ↔ env.labels.reverse.drop 1 = gensimPreds model key k)
    ∧ (env.labels.reverse.drop 1 ≠ gensimPreds model key k →
      (deploy_model env path model k fd ss).2 = .error .assertionError) :=
  ⟨(deploy_model_outcome env path model k fd ss key rest hh hf hd hp hidx).1,
   (deploy_model_outcome env path model k fd ss key rest hh hf hd hp hidx).2.1⟩

theorem deploy_model_validation_witness :
    (deploy_model envKnnOk "s3://bucket/vectors/data.csv" modelBC 10 48 65536).2
      = .ok (knnEndpointName 1700000000000) :=
  (deploy_model_validation envKnnOk "s3://bucket/vectors/data.csv" modelBC
    10 48 65536 "a" ["b", "c"] rfl rfl rfl rfl rfl).1.mpr (by decide)

/-- C9 (amended): when `k ≥ 2` and the local gensim ranking has its full
`k - 1` entries, the final assertion of `deploy_model` can succeed only if the
endpoint returned exactly `k` labels, and any response with a different number
of labels raises `AssertionError`.  (For `k = 1` the claim fails: an empty
response also passes, see the counterexample.) -/
theorem knn_response_length (env : KnnEnv) (path : String) (model : KeyedVectors)
    (k fd ss : Nat) (key : String) (rest : List String)
    (hh : env.hyperErr = none) (hf : env.fitErr = none) (hd : env.deployErr = none)
    (hp : env.predictErr = none) (hidx : model.index_to_key = key :: rest)
    (hk : 2 ≤ k) (hlen : (model.similar_by_key key (k - 1)).length = k - 1) :
    ((deploy_model env path model k fd ss).2 = .ok (knnEndpointName env.timeMs) →
      env.labels.length = k)
    ∧ (env.labels.length ≠ k →
      (deploy_model env path model k fd ss).2 = .error .assertionError) := by
  have h := deploy_model_outcome env path model k fd ss key rest hh hf hd hp hidx
  have hlen2 : (gensimPreds model key k).length = k - 1 := by
    simp [gensimPreds, hlen]
  constructor
  · intro hok
    have heq := congrArg List.length (h.1.mp hok)
    simp [hlen2] at heq
    omega
  · intro hne
    apply h.2.1
    intro heq
    have hlc := congrArg List.length heq
    simp [hlen2] at hlc
    omega

/-- C9 counterexample: at `k = 1` (hence a `k - 1 = 0`-entry local ranking)
`deploy_model` accepts an endpoint response whose `labels` list is empty — it
returns the endpoint name although the response does not have `k` labels. -/
theorem knn_response_length_cex :
    (deploy_model envKnnEmpty "s3://bucket/vectors/data.csv" modelSolo 1 48 65536).2
      = .ok (knnEndpointName 0)
    ∧ (modelSolo.similar_by_key "a" (1 - 1)).length = 1 - 1
    ∧ envKnnEmpty.labels.length ≠ 1 := by
  refine ⟨rfl, by decide, by decide⟩

/-- Complete description of `deploy_tf_model` when every external call
succeeds: full canonical trace, outcome decided by the truthiness assertion on
`result['predictions']`, and the final filesystem. -/
theorem deploy_tf_model_success (env : TfEnv) (fs : List String) (rid : Nat)
    (h1 : env.saveErr = none) (h2 : env.archiveErr = none) (h3 : env.putErr = none)
    (h4 : env.createErr = none) (h5 : env.deployErr = none)
    (h6 : env.predictErr = none) :
    (deploy_tf_model env fs rid).1 = fullTfTrace env rid
    ∧ ((deploy_tf_model env fs rid).2.2 = .ok (env.putUrl, tfEndpointName env.timeMs)
        ↔ env.predictions ≠ [])
    ∧ (env.predictions = [] →
        (deploy_tf_model env fs rid).2.2 = .error .assertionError)
    ∧ (deploy_tf_model env fs rid).2.1
      = fsRemove (fsRmtree (fsCreate (fsCreate (fsCreate fs (modelDirRoot rid))
          (savedModelName rid)) (localTarName rid)) (modelDirRoot rid))
          (localTarName rid) := by
  obtain ⟨t, url, preds, e1, e2, e3, e4, e5, e6⟩ := env
  dsimp only at h1 h2 h3 h4 h5 h6
  subst h1; subst h2; subst h3; subst h4; subst h5; subst h6
  simp only [deploy_tf_model, tf_model_to_tar]
  by_cases hp : preds = []
  · rw [if_pos hp]
    exact ⟨by simp [fullTfTrace], by simp [hp], fun _ => rfl, rfl⟩
  · rw [if_neg hp]
    exact ⟨by simp [fullTfTrace], by simp [hp], fun h => absurd h hp, rfl⟩

/-- C2 (amended): on its success path `deploy_tf_model` serializes and
archives the model, uploads the archive, requests model creation and endpoint
deployment, issues exactly one test inference, asserts that the response's
`predictions` field is non-empty — a truthiness smoke test, not a comparison
against a locally computed reference value — and only then returns the model
S3 path and endpoint name. -/
theorem tf_one_smoke_test (env : TfEnv) (fs : List String) (rid : Nat)
    (h1 : env.saveErr = none) (h2 : env.archiveErr = none) (h3 : env.putErr = none)
    (h4 : env.createErr = none) (h5 : env.deployErr = none)
    (h6 : env.predictErr = none) :
    (deploy_tf_model env fs rid).1.count (ExtCall.predict (tfEndpointName env.timeMs)) = 1
    ∧ (deploy_tf_model env fs rid).1 = fullTfTrace env rid
    ∧ ((deploy_tf_model env fs rid).2.2 = .ok (env.putUrl, tfEndpointName env.timeMs)
        ↔ env.predictions ≠ [])
    ∧ (env.predictions = [] →
        (deploy_tf_model env fs rid).2.2 = .error .assertionError) := by
  have h := deploy_tf_model_success env fs rid h1 h2 h3 h4 h5 h6
  refine ⟨?_, h.1, h.2.1, h.2.2.1⟩
  rw [h.1]
  simp [fullTfTrace, List.count_cons]

/-- C2 counterexample: the test inference's result is not compared against any
locally computed reference: two environments that differ only in the endpoint's
inference result are both accepted, so acceptance cannot be an equality test
against a value computed from the function's other inputs. -/
theorem tf_one_smoke_test_cex :
    (deploy_tf_model envTfOk [] 3).2.2
      = .ok ("s3://bucket/model-3.tar.gz", tfEndpointName 1700000000000)
    ∧ (deploy_tf_model envTfOther [] 3).2.2
      = .ok ("s3://bucket/model-3.tar.gz", tfEndpointName 1700000000000)
    ∧ envTfOk.predictions ≠ envTfOther.predictions := by
  refine ⟨rfl, rfl, by decide⟩

theorem tf_one_smoke_test_witness :
    (deploy_tf_model envTfOk [] 3).1.count
      (ExtCall.predict (tfEndpointName envTfOk.timeMs)) = 1 :=
  (tf_one_smoke_test envTfOk [] 3 rfl rfl rfl rfl rfl rfl).1

theorem savedModelName_data (rid : Nat) :
    (savedModelName rid).data
      = ("intent-model-".data ++ decDigits rid) ++ '/' :: ['1'] := by
  unfold savedModelName
  rw [string_data_append, string_data_append, repr_data]

theorem modelDirRoot_data (rid : Nat) :
    (modelDirRoot rid).data = "intent-model-".data ++ decDigits rid := by
  rw [modelDirRoot_eq, string_data_append, repr_data]

theorem localTarName_data (rid : Nat) :
    (localTarName rid).data
      = ("model-".data ++ decDigits rid) ++ ".tar.gz".data := by
  unfold localTarName
  rw [string_data_append, string_data_append, repr_data]

theorem saved_in_tree (rid : Nat) :
    strStartsWith (modelDirRoot rid ++ "/") (savedModelName rid) = true := by
  have hp : (modelDirRoot rid ++ "/").data
      = ("intent-model-".data ++ decDigits rid) ++ ['/'] := by
    rw [string_data_append, modelDirRoot_data]
  simp only [strStartsWith, decide_eq_true_eq]
  rw [hp, savedModelName_data]
  have hassoc : ("intent-model-".data ++ decDigits rid) ++ '/' :: ['1']
      = (("intent-model-".data ++ decDigits rid) ++ ['/']) ++ ['1'] := by
    simp [List.append_assoc]
  rw [hassoc, List.take_left]

theorem tar_ne_root (rid : Nat) : localTarName rid ≠ modelDirRoot rid := by
  intro h
  have hd := congrArg String.data h
  rw [localTarName_data, modelDirRoot_data] at hd
  have h1 : "model-".data = 'm' :: "odel-".data := rfl
  have h2 : "intent-model-".data = 'i' :: "ntent-model-".data := rfl
  rw [h1, h2] at hd
  simp [List.cons_append] at hd

theorem tar_not_in_tree (rid : Nat) :
    strStartsWith (modelDirRoot rid ++ "/") (localTarName rid) = false := by
  simp only [strStartsWith, decide_eq_false_iff_not]
  intro h
  rw [string_data_append, modelDirRoot_data, localTarName_data] at h
  have h1 : "model-".data = 'm' :: "odel-".data := rfl
  have h2 : "intent-model-".data = 'i' :: "ntent-model-".data := rfl
  rw [h1, h2] at h
  simp only [List.cons_append, List.append_assoc, List.length_cons,
    List.take_succ_cons] at h
  simp at h

theorem knn_response_length_witness :
    (deploy_model envKnnShort "s3://bucket/vectors/data.csv" modelOne 2 48 65536).2
      = .error .assertionError :=
  (knn_response_length envKnnShort "s3://bucket/vectors/data.csv" modelOne
    2 48 65536 "a" ["b"] rfl rfl rfl rfl rfl (by decide) (by decide)).2 (by decide)

/-- C6: after a normal return of `deploy_tf_model` neither the saved model
directory `intent-model-<run_id>` (removed inside `tf_model_to_tar` right
after archiving) nor the archive `model-<run_id>.tar.gz` (removed right after
its bytes are uploaded) exists locally, and every unrelated path is exactly as
before; moreover `tf_model_to_tar` itself already returns with the directory
gone and only the archive present. -/
theorem tf_artifacts_ephemeral (env : TfEnv) (fs : List String) (rid : Nat)
    (h1 : env.saveErr = none) (h2 : env.archiveErr = none) (h3 : env.putErr = none)
    (h4 : env.createErr = none) (h5 : env.deployErr = none)
    (h6 : env.predictErr = none) (hne : env.predictions ≠ []) :
    (deploy_tf_model env fs rid).2.2 = .ok (env.putUrl, tfEndpointName env.timeMs)
    ∧ localTarName rid ∉ (deploy_tf_model env fs rid).2.1
    ∧ modelDirRoot rid ∉ (deploy_tf_model env fs rid).2.1
    ∧ savedModelName rid ∉ (deploy_tf_model env fs rid).2.1
    ∧ (∀ p : String, p ≠ localTarName rid → ¬ inTree (modelDirRoot rid) p →
        (p ∈ (deploy_tf_model env fs rid).2.1 ↔ p ∈ fs))
    ∧ modelDirRoot rid ∉ (tf_model_to_tar fs rid none none).2.1
    ∧ savedModelName rid ∉ (tf_model_to_tar fs rid none none).2.1
    ∧ localTarName rid ∈ (tf_model_to_tar fs rid none none).2.1 := by
  have h := deploy_tf_model_success env fs rid h1 h2 h3 h4 h5 h6
  have hfs := h.2.2.2
  refine ⟨h.2.1.mpr hne, ?_, ?_, ?_, ?_, ?_, ?_, ?_⟩
  · rw [hfs]; simp [mem_fsRemove]
  · rw [hfs]; simp [mem_fsRemove, mem_fsRmtree]
  · rw [hfs]; simp [mem_fsRemove, mem_fsRmtree, saved_in_tree]
  · intro p hptar hpt
    have hproot : p ≠ modelDirRoot rid := fun hp => hpt (Or.inl hp)
    have hpstart : ¬ strStartsWith (modelDirRoot rid ++ "/") p = true :=
      fun hs => hpt (Or.inr hs)
    have hpsaved : p ≠ savedModelName rid := by
      intro hp
      exact hpstart (by rw [hp]; exact saved_in_tree rid)
    rw [hfs]
    rw [mem_fsRemove, mem_fsRmtree, mem_fsCreate, mem_fsCreate, mem_fsCreate]
    constructor
    · rintro ⟨⟨hmem, _⟩, _⟩
      rcases hmem with h | h | h | h
      · exact absurd h hptar
      · exact absurd h hpsaved
      · exact absurd h hproot
      · exact h
    · intro hpfs
      exact ⟨⟨Or.inr (Or.inr (Or.inr hpfs)), fun hc => hpt hc⟩, hptar⟩
  · simp [tf_model_to_tar, mem_fsRmtree]
  · simp [tf_model_to_tar, mem_fsRmtree, saved_in_tree]
  · simp [tf_model_to_tar, mem_fsRmtree, mem_fsCreate, tar_ne_root, tar_not_in_tree]

theorem tf_artifacts_ephemeral_witness :
    localTarName 3 ∉ (deploy_tf_model envTfOk ["keep.txt"] 3).2.1
    ∧ modelDirRoot 3 ∉ (deploy_tf_model envTfOk ["keep.txt"] 3).2.1 := by
  have h := tf_artifacts_ephemeral envTfOk ["keep.txt"] 3 rfl rfl rfl rfl rfl rfl
    (by decide)
  exact ⟨h.2.1, h.2.2.1⟩

/-- Every `deploy_tf_model` trace is a leading piece of the canonical call
sequence: calls are attempted in the fixed order and execution stops at the
first failure. -/
theorem deploy_tf_trace_shape (env : TfEnv) (fs : List String) (rid : Nat) :
    ∃ n, (deploy_tf_model env fs rid).1 = (fullTfTrace env rid).take n := by
  obtain ⟨t, url, preds, e1, e2, e3, e4, e5, e6⟩ := env
  cases e1 with
  | some m => exact ⟨1, by simp [deploy_tf_model, tf_model_to_tar, fullTfTrace]⟩
  | none =>
  cases e2 with
  | some m => exact ⟨2, by simp [deploy_tf_model, tf_model_to_tar, fullTfTrace]⟩
  | none =>
  cases e3 with
  | some m => exact ⟨3, by simp [deploy_tf_model, tf_model_to_tar, fullTfTrace]⟩
  | none =>
  cases e4 with
  | some m => exact ⟨4, by simp [deploy_tf_model, tf_model_to_tar, fullTfTrace]⟩
  | none =>
  cases e5 with
  | some m => exact ⟨5, by simp [deploy_tf_model, tf_model_to_tar, fullTfTrace]⟩
  | none =>
  cases e6 with
  | some m => exact ⟨6, by simp [deploy_tf_model, tf_model_to_tar, fullTfTrace]⟩
  | none =>
    by_cases hp : preds = []
    · exact ⟨6, by simp [deploy_tf_model, tf_model_to_tar, fullTfTrace, hp]⟩
    · exact ⟨6, by simp [deploy_tf_model, tf_model_to_tar, fullTfTrace, hp]⟩

/-- Every `deploy_model` trace is a leading piece of its canonical call
sequence. -/
theorem deploy_knn_trace_shape (env : KnnEnv) (path : String)
    (model : KeyedVectors) (k fd ss : Nat) :
    ∃ n, (deploy_model env path model k fd ss).1
      = (fullKnnTrace env path k fd ss).take n := by
  obtain ⟨t, labels, e1, e2, e3, e4⟩ := env
  cases e1 with
  | some m => exact ⟨2, by simp [deploy_model, fullKnnTrace]⟩
  | none =>
  cases e2 with
  | some m => exact ⟨3, by simp [deploy_model, fullKnnTrace]⟩
  | none =>
  cases e3 with
  | some m => exact ⟨4, by simp [deploy_model, fullKnnTrace]⟩
  | none =>
  rcases hidx : model.index_to_key with _ | ⟨key, rest⟩
  · exact ⟨4, by simp [deploy_model, fullKnnTrace, hidx]⟩
  · cases e4 with
    | some m => exact ⟨5, by simp [deploy_model, fullKnnTrace, hidx]⟩
    | none =>
      by_cases hEq : List.drop 1 labels.reverse = gensimPreds model key k
      · refine ⟨5, ?_⟩
        simp only [deploy_model, hidx]
        rw [if_pos hEq]
        simp [fullKnnTrace]
      · refine ⟨5, ?_⟩
        simp only [deploy_model, hidx]
        rw [if_neg hEq]
        simp [fullKnnTrace]

theorem fullTfTrace_nodup (env : TfEnv) (rid : Nat) : (fullTfTrace env rid).Nodup := by
  simp [fullTfTrace]

theorem fullKnnTrace_nodup (env : KnnEnv) (path : String) (k fd ss : Nat) :
    (fullKnnTrace env path k fd ss).Nodup := by
  simp [fullKnnTrace]

/-- C5: neither function catches an exception: an error injected at any
external call surfaces unchanged as the function's outcome, the assertion
failures are fatal, and no call is ever retried (the trace never repeats a
call). -/
theorem errors_propagate_uncaught :
    (∀ (env : TfEnv) (fs : List String) (rid : Nat) (m : String),
      (env.saveErr = some m →
        (deploy_tf_model env fs rid).2.2 = .error (.sdkError "tf_model.save" m))
      ∧ (env.saveErr = none → env.archiveErr = some m →
        (deploy_tf_model env fs rid).2.2 = .error (.sdkError "tarfile.add" m))
      ∧ (env.saveErr = none → env.archiveErr = none → env.putErr = some m →
        (deploy_tf_model env fs rid).2.2 = .error (.sdkError "s3.put" m))
      ∧ (env.saveErr = none → env.archiveErr = none → env.putErr = none →
          env.createErr = some m →
        (deploy_tf_model env fs rid).2.2 = .error (.sdkError "TensorFlowModel" m))
      ∧ (env.saveErr = none → env.archiveErr = none → env.putErr = none →
          env.createErr = none → env.deployErr = some m →
        (deploy_tf_model env fs rid).2.2 = .error (.sdkError "model.deploy" m))
      ∧ (env.saveErr = none → env.archiveErr = none → env.putErr = none →
          env.createErr = none → env.deployErr = none → env.predictErr = some m →
        (deploy_tf_model env fs rid).2.2 = .error (.sdkError "predictor.predict" m))
      ∧ (env.saveErr = none → env.archiveErr = none → env.putErr = none →
          env.createErr = none → env.deployErr = none → env.predictErr = none →
          env.predictions = [] →
        (deploy_tf_model env fs rid).2.2 = .error .assertionError)
      ∧ (deploy_tf_model env fs rid).1.Nodup)
    ∧ (∀ (env : KnnEnv) (path : String) (model : KeyedVectors) (k fd ss : Nat)
        (m : String),
      (env.hyperErr = some m →
        (deploy_model env path model k fd ss).2
          = .error (.sdkError "set_hyperparameters" m))
      ∧ (env.hyperErr = none → env.fitErr = some m →
        (deploy_model env path model k fd ss).2 = .error (.sdkError "fit" m))
      ∧ (env.hyperErr = none → env.fitErr = none → env.deployErr = some m →
        (deploy_model env path model k fd ss).2 = .error (.sdkError "deploy" m))
      ∧ (env.hyperErr = none → env.fitErr = none → env.deployErr = none →
          env.predictErr = some m →
        ∀ key rest, model.index_to_key = key :: rest →
        (deploy_model env path model k fd ss).2
          = .error (.sdkError "predictor.predict" m))
      ∧ (env.hyperErr = none → env.fitErr = none → env.deployErr = none →
          env.predictErr = none →
        ∀ key rest, model.index_to_key = key :: rest →
        env.labels.reverse.drop 1 ≠ gensimPreds model key k →
        (deploy_model env path model k fd ss).2 = .error .assertionError)
      ∧ (deploy_model env path model k fd ss).1.Nodup) := by
  constructor
  · intro env fs rid m
    obtain ⟨t, url, preds, e1, e2, e3, e4, e5, e6⟩ := env
    refine ⟨?_, ?_, ?_, ?_, ?_, ?_, ?_, ?_⟩
    · intro ha; dsimp only at ha; subst ha
      simp [deploy_tf_model, tf_model_to_tar]
    · intro ha hb; dsimp only at ha hb; subst ha; subst hb
      simp [deploy_tf_model, tf_model_to_tar]
    · intro ha hb hc; dsimp only at ha hb hc; subst ha; subst hb; subst hc
      simp [deploy_tf_model, tf_model_to_tar]
    · intro ha hb hc he; dsimp only at ha hb hc he
      subst ha; subst hb; subst hc; subst he
      simp [deploy_tf_model, tf_model_to_tar]
    · intro ha hb hc he hf; dsimp only at ha hb hc he hf
      subst ha; subst hb; subst hc; subst he; subst hf
      simp [deploy_tf_model, tf_model_to_tar]
    · intro ha hb hc he hf hg; dsimp only at ha hb hc he hf hg
      subst ha; subst hb; subst hc; subst he; subst hf; subst hg
      simp [deploy_tf_model, tf_model_to_tar]
    · intro ha hb hc he hf hg hi; dsimp only at ha hb hc he hf hg hi
      subst ha; subst hb; subst hc; subst he; subst hf; subst hg
      simp [deploy_tf_model, tf_model_to_tar, hi]
    · obtain ⟨n, hn⟩ := deploy_tf_trace_shape ⟨t, url, preds, e1, e2, e3, e4, e5, e6⟩ fs rid
      rw [hn]
      exact List.Nodup.sublist (List.take_sublist n _) (fullTfTrace_nodup _ _)
  · intro env path model k fd ss m
    obtain ⟨t, labels, e1, e2, e3, e4⟩ := env
    refine ⟨?_, ?_, ?_, ?_, ?_, ?_⟩
    · intro ha; dsimp only at ha; subst ha
      simp [deploy_model]
    · intro ha hb; dsimp only at ha hb; subst ha; subst hb
      simp [deploy_model]
    · intro ha hb hc; dsimp only at ha hb hc; subst ha; subst hb; subst hc
      simp [deploy_model]
    · intro ha hb hc he key rest hidx; dsimp only at ha hb hc he
      subst ha; subst hb; subst hc; subst he
      simp [deploy_model, hidx]
    · intro ha hb hc he key rest hidx hne; dsimp only at ha hb hc he
      subst ha; subst hb; subst hc; subst he
      exact (deploy_model_outcome ⟨t, labels, none, none, none, none⟩ path model
        k fd ss key rest rfl rfl rfl rfl hidx).2.1 hne
    · obtain ⟨n, hn⟩ := deploy_knn_trace_shape ⟨t, labels, e1, e2, e3, e4⟩ path model k fd ss
      rw [hn]
      exact List.Nodup.sublist (List.take_sublist n _) (fullKnnTrace_nodup _ _ _ _ _)

theorem errors_propagate_uncaught_witness :
    (deploy_tf_model envTfPutFail [] 3).2.2 = .error (.sdkError "s3.put" "boom") :=
  (errors_propagate_uncaught.1 envTfPutFail [] 3 "boom").2.2.1 rfl rfl rfl

/-- C7: within each function the external operations are attempted exactly
once each in a fixed order with no branching or looping — every trace is a
leading piece of the canonical sequence, the full-success trace is exactly the
canonical sequence — and a test inference appears in a trace only with the
endpoint deployment call having succeeded immediately before it. -/
theorem calls_sequential_once :
    (∀ (env : TfEnv) (fs : List String) (rid : Nat),
      ∃ n, (deploy_tf_model env fs rid).1 = (fullTfTrace env rid).take n)
    ∧ (∀ (env : TfEnv) (fs : List String) (rid : Nat),
        env.saveErr = none → env.archiveErr = none → env.putErr = none →
        env.createErr = none → env.deployErr = none → env.predictErr = none →
        (deploy_tf_model env fs rid).1 = fullTfTrace env rid)
    ∧ (∀ (env : KnnEnv) (path : String) (model : KeyedVectors) (k fd ss : Nat),
        ∃ n, (deploy_model env path model k fd ss).1
          = (fullKnnTrace env path k fd ss).take n)
    ∧ (∀ (env : KnnEnv) (path : String) (model : KeyedVectors) (k fd ss : Nat)
        (key : String) (rest : List String),
        env.hyperErr = none → env.fitErr = none → env.deployErr = none →
        env.predictErr = none → model.index_to_key = key :: rest →
        (deploy_model env path model k fd ss).1 = fullKnnTrace env path k fd ss)
    ∧ (∀ (env : TfEnv) (fs : List String) (rid : Nat) (nm : String),
        ExtCall.predict nm ∈ (deploy_tf_model env fs rid).1 →
        env.deployErr = none ∧
        ∃ a, (deploy_tf_model env fs rid).1
          = a ++ [.deployEndpoint nm, .predict nm])
    ∧ (∀ (env : KnnEnv) (path : String) (model : KeyedVectors) (k fd ss : Nat)
        (nm : String),
        ExtCall.predict nm ∈ (deploy_model env path model k fd ss).1 →
        env.deployErr = none ∧
        ∃ a, (deploy_model env path model k fd ss).1
          = a ++ [.deployEndpoint nm, .predict nm]) := by
  refine ⟨deploy_tf_trace_shape,
    fun env fs rid h1 h2 h3 h4 h5 h6 =>
      (deploy_tf_model_success env fs rid h1 h2 h3 h4 h5 h6).1,
    deploy_knn_trace_shape,
    fun env path model k fd ss key rest hh hf hd hp hidx =>
      (deploy_model_outcome env path model k fd ss key rest hh hf hd hp hidx).2.2,
    ?_, ?_⟩
  · intro env fs rid nm hmem
    obtain ⟨t, url, preds, e1, e2, e3, e4, e5, e6⟩ := env
    cases e1 with
    | some m => simp [deploy_tf_model, tf_model_to_tar] at hmem
    | none =>
    cases e2 with
    | some m => simp [deploy_tf_model, tf_model_to_tar] at hmem
    | none =>
    cases e3 with
    | some m => simp [deploy_tf_model, tf_model_to_tar] at hmem
    | none =>
    cases e4 with
    | some m => simp [deploy_tf_model, tf_model_to_tar] at hmem
    | none =>
    cases e5 with
    | some m => simp [deploy_tf_model, tf_model_to_tar] at hmem
    | none =>
    cases e6 with
    | some m =>
      simp [deploy_tf_model, tf_model_to_tar] at hmem
      subst hmem
      refine ⟨rfl, ⟨[.saveModel (savedModelName rid), .archive (localTarName rid),
        .s3Put (localTarName rid), .createModel url], ?_⟩⟩
      simp [deploy_tf_model, tf_model_to_tar]
    | none =>
      by_cases hp : preds = []
      · simp [deploy_tf_model, tf_model_to_tar, hp] at hmem
        subst hmem
        refine ⟨rfl, ⟨[.saveModel (savedModelName rid), .archive (localTarName rid),
          .s3Put (localTarName rid), .createModel url], ?_⟩⟩
        simp [deploy_tf_model, tf_model_to_tar, hp]
      · simp [deploy_tf_model, tf_model_to_tar, hp] at hmem
        subst hmem
        refine ⟨rfl, ⟨[.saveModel (savedModelName rid), .archive (localTarName rid),
          .s3Put (localTarName rid), .createModel url], ?_⟩⟩
        simp [deploy_tf_model, tf_model_to_tar, hp]
  · intro env path model k fd ss nm hmem
    obtain ⟨t, labels, e1, e2, e3, e4⟩ := env
    cases e1 with
    | some m => simp [deploy_model] at hmem
    | none =>
    cases e2 with
    | some m => simp [deploy_model] at hmem
    | none =>
    cases e3 with
    | some m => simp [deploy_model] at hmem
    | none =>
    rcases hidx : model.index_to_key with _ | ⟨key, rest⟩
    · simp [deploy_model, hidx] at hmem
    · cases e4 with
      | some m =>
        simp [deploy_model, hidx] at hmem
        subst hmem
        refine ⟨rfl, ⟨[.createEstimator (deployModelTargetPath path),
          .setHyper k fd ss, .fit path], ?_⟩⟩
        simp [deploy_model, hidx]
      | none =>
        by_cases hEq : List.drop 1 labels.reverse = gensimPreds model key k
        · have htr : (deploy_model ⟨t, labels, none, none, none, none⟩ path model k fd ss).1
              = fullKnnTrace ⟨t, labels, none, none, none, none⟩ path k fd ss :=
            (deploy_model_outcome ⟨t, labels, none, none, none, none⟩ path model
              k fd ss key rest rfl rfl rfl rfl hidx).2.2
          rw [htr] at hmem ⊢
          simp [fullKnnTrace] at hmem
          subst hmem
          exact ⟨rfl, ⟨[.createEstimator (deployModelTargetPath path),
            .setHyper k fd ss, .fit path], by simp [fullKnnTrace]⟩⟩
        · have htr : (deploy_model ⟨t, labels, none, none, none, none⟩ path model k fd ss).1
              = fullKnnTrace ⟨t, labels, none, none, none, none⟩ path k fd ss :=
            (deploy_model_outcome ⟨t, labels, none, none, none, none⟩ path model
              k fd ss key rest rfl rfl rfl rfl hidx).2.2
          rw [htr] at hmem ⊢
          simp [fullKnnTrace] at hmem
          subst hmem
          exact ⟨rfl, ⟨[.createEstimator (deployModelTargetPath path),
            .setHyper k fd ss, .fit path], by simp [fullKnnTrace]⟩⟩

theorem calls_sequential_once_witness :
    (deploy_tf_model envTfOk [] 3).1 = fullTfTrace envTfOk 3 :=
  calls_sequential_once.2.1 envTfOk [] 3 rfl rfl rfl rfl rfl rfl

theorem head_opt_mem {l : List Char} {c : Char} (h : l.head? = some c) : c ∈ l :=
  List.mem_of_mem_head? (Option.mem_def.mpr h)

theorem mem_of_getLast_opt {l : List Char} {c : Char} (h : l.getLast? = some c) :
    c ∈ l := by
  have h2 : l.reverse.head? = some c := by rw [List.head?_reverse]; exact h
  exact List.mem_reverse.mp (head_opt_mem h2)

theorem takeWhile_until_slash : ∀ (b r : List Char), '/' ∉ b →
    (b ++ '/' :: r).takeWhile (fun c => !(c == '/')) = b := by
  intro b
  induction b with
  | nil =>
    intro r _
    simp [List.takeWhile_cons]
  | cons x xs ih =>
    intro r h
    have hx : x ≠ '/' := fun hc => h (hc ▸ List.mem_cons_self x xs)
    have hxs : '/' ∉ xs := fun hc => h (List.mem_cons_of_mem x hc)
    simp [List.cons_append, List.takeWhile_cons, hx, ih r hxs]

theorem dropWhile_until_slash : ∀ (b r : List Char), '/' ∉ b →
    (b ++ '/' :: r).dropWhile (fun c => !(c == '/')) = '/' :: r := by
  intro b
  induction b with
  | nil =>
    intro r _
    simp [List.dropWhile_cons]
  | cons x xs ih =>
    intro r h
    have hx : x ≠ '/' := fun hc => h (hc ▸ List.mem_cons_self x xs)
    have hxs : '/' ∉ xs := fun hc => h (List.mem_cons_of_mem x hc)
    simp [List.cons_append, List.dropWhile_cons, hx, ih r hxs]

theorem dropWhile_slash_of_head (l : List Char)
    (h : ∀ c, l.head? = some c → c ≠ '/') :
    l.dropWhile (fun c => c == '/') = l := by
  cases l with
  | nil => rfl
  | cons x xs =>
    have hx : x ≠ '/' := h x rfl
    simp [List.dropWhile_cons, hx]

theorem joinSlash_cons_cons (x y : List Char) (ys : List (List Char)) :
    joinSlash (x :: y :: ys) = x ++ '/' :: joinSlash (y :: ys) := rfl

theorem joinSlash_head (x : List Char) (xs : List (List Char)) (c : Char)
    (hx : x.head? = some c) : (joinSlash (x :: xs)).head? = some c := by
  cases xs with
  | nil => exact hx
  | cons y ys =>
    rw [joinSlash_cons_cons, List.head?_append, hx]
    rfl

theorem joinSlash_concat : ∀ (xs : List (List Char)) (x y : List Char),
    joinSlash ((x :: xs) ++ [y]) = joinSlash (x :: xs) ++ '/' :: y := by
  intro xs
  induction xs with
  | nil => intro x y; rfl
  | cons x2 xs ih =>
    intro x y
    have h2 : (x2 :: xs) ++ [y] = x2 :: (xs ++ [y]) := rfl
    show joinSlash (x :: x2 :: (xs ++ [y])) = _
    rw [joinSlash_cons_cons, ← h2, ih x2 y, joinSlash_cons_cons]
    simp [List.append_assoc]

theorem splitOnChar_joinSlash : ∀ (parts : List (List Char)), parts ≠ [] →
    (∀ p ∈ parts, '/' ∉ p) → splitOnChar '/' (joinSlash parts) = parts := by
  intro parts
  induction parts with
  | nil => intro h; exact absurd rfl h
  | cons x xs ih =>
    intro _ hall
    cases xs with
    | nil => exact splitOnChar_no_sep '/' x (hall x (List.mem_cons_self x []))
    | cons y ys =>
      rw [joinSlash_cons_cons,
        splitOnChar_append_sep '/' x _ (hall x (List.mem_cons_self _ _)),
        ih (by simp) (fun p hp => hall p (List.mem_cons_of_mem x hp))]

theorem getLast_opt_append_cons (a : List Char) (x : Char) (r : List Char) :
    (a ++ x :: r).getLast? = (x :: r).getLast? := by
  rw [List.getLast?_append]
  rcases h : (x :: r).getLast? with _ | c
  · rw [List.getLast?_eq_none_iff] at h
    exact absurd h (by simp)
  · rfl

theorem joinSlash_head_ne_slash (parts : List (List Char))
    (hall : ∀ p ∈ parts, p ≠ [] ∧ '/' ∉ p) :
    ∀ c, (joinSlash parts).head? = some c → c ≠ '/' := by
  intro c hc hcon
  subst hcon
  cases parts with
  | nil => simp [joinSlash] at hc
  | cons x xs =>
    obtain ⟨hx, hxs⟩ := hall x (List.mem_cons_self _ _)
    rcases x with _ | ⟨d, x'⟩
    · exact hx rfl
    · rw [joinSlash_head (d :: x') xs d rfl] at hc
      injection hc with hc
      apply hxs
      rw [← hc]
      exact List.mem_cons_self d x'

theorem joinSlash_reverse_head (xs : List (List Char)) (y : List Char)
    (hy : y ≠ []) (hys : '/' ∉ y) :
    ∀ c, (joinSlash (xs ++ [y])).reverse.head? = some c → c ≠ '/' := by
  intro c hc hcon
  subst hcon
  apply hys
  rw [List.head?_reverse] at hc
  cases xs with
  | nil => exact mem_of_getLast_opt (by simpa [joinSlash] using hc)
  | cons x xs' =>
    rw [joinSlash_concat xs' x y, getLast_opt_append_cons] at hc
    rcases y with _ | ⟨d, y'⟩
    · exact absurd rfl hy
    · rw [show ('/' : Char) :: d :: y' = ['/'] ++ d :: y' from rfl,
        getLast_opt_append_cons] at hc
      exact mem_of_getLast_opt hc

theorem stripSlash_slash_joinSlash (xs : List (List Char)) (y : List Char)
    (hall : ∀ p ∈ xs ++ [y], p ≠ [] ∧ '/' ∉ p) :
    stripSlash ('/' :: joinSlash (xs ++ [y])) = joinSlash (xs ++ [y]) := by
  obtain ⟨hy, hys⟩ := hall y (by simp)
  unfold stripSlash
  have h1 : (('/' :: joinSlash (xs ++ [y])).dropWhile (fun c => c == '/'))
      = joinSlash (xs ++ [y]) := by
    rw [List.dropWhile_cons]
    rw [if_pos (by rfl)]
    exact dropWhile_slash_of_head _ (joinSlash_head_ne_slash _ hall)
  rw [h1, dropWhile_slash_of_head _ (joinSlash_reverse_head xs y hy hys),
    List.reverse_reverse]

theorem joinSlash_merge (a b : List Char) (ps : List (List Char)) :
    joinSlash ((a ++ '/' :: b) :: ps) = a ++ '/' :: joinSlash (b :: ps) := by
  cases ps with
  | nil => rfl
  | cons q qs =>
    rw [joinSlash_cons_cons, joinSlash_cons_cons]
    simp [List.append_assoc]

theorem osPathJoin_eq_joinSlash :
    ∀ (ps : List (List Char)) (acc : List Char),
      acc ≠ [] → (∀ c, acc.getLast? = some c → c ≠ '/') →
      (∀ p ∈ ps, p ≠ [] ∧ '/' ∉ p) →
      osPathJoin acc ps = joinSlash (acc :: ps) := by
  intro ps
  induction ps with
  | nil => intro acc _ _ _; rfl
  | cons p ps ih =>
    intro acc hacc hlast hall
    obtain ⟨hp, hps⟩ := hall p (List.mem_cons_self _ _)
    rcases p with _ | ⟨d, p'⟩
    · exact absurd rfl hp
    · have hd : d ≠ '/' := fun hc => hps (hc ▸ List.mem_cons_self d p')
      rw [osPathJoin]
      rw [if_neg (by simp [hd])]
      rw [if_neg (by
        rintro (h | h)
        · exact hacc h
        · exact hlast '/' h rfl)]
      rw [ih (acc ++ '/' :: d :: p') (by simp) ?_ (fun q hq => hall q (List.mem_cons_of_mem _ hq))]
      · exact (joinSlash_merge acc (d :: p') ps).symm ▸ rfl
      · intro c hc hcon
        subst hcon
        rw [getLast_opt_append_cons] at hc
        rw [show ('/' : Char) :: d :: p' = ['/'] ++ d :: p' from rfl,
          getLast_opt_append_cons] at hc
        exact hps (mem_of_getLast_opt hc)

/-- Every `deploy_model` trace starts with the estimator construction carrying
the computed training output path. -/
theorem deploy_knn_trace_head (env : KnnEnv) (path : String)
    (model : KeyedVectors) (k fd ss : Nat) :
    (deploy_model env path model k fd ss).1.head?
      = some (.createEstimator (deployModelTargetPath path)) := by
  obtain ⟨t, labels, e1, e2, e3, e4⟩ := env
  cases e1 with
  | some m => simp [deploy_model]
  | none =>
  cases e2 with
  | some m => simp [deploy_model]
  | none =>
  cases e3 with
  | some m => simp [deploy_model]
  | none =>
  rcases hidx : model.index_to_key with _ | ⟨key, rest⟩
  · simp [deploy_model, hidx]
  · cases e4 with
    | some m => simp [deploy_model, hidx]
    | none =>
      by_cases hEq : List.drop 1 labels.reverse = gensimPreds model key k
      · simp only [deploy_model, hidx]
        rw [if_pos hEq]
        rfl
      · simp only [deploy_model, hidx]
        rw [if_neg hEq]
        rfl

/-- C8: for a vectors URL `s3://<bucket>/<seg₁>/.../<segₙ>/<last>` (each
component non-empty and slash-free), the training output path `deploy_model`
hands to the estimator is `s3://<bucket>/<seg₁>/.../<segₙ>` — the input URL
with its final path component dropped and no trailing slash, degenerating to
`s3://<bucket>` when the path has a single component. -/
theorem target_path_drops_last_component (bucket last : String) (segs : List String)
    (hb : bucket.data ≠ [] ∧ '/' ∉ bucket.data)
    (hl : last.data ≠ [] ∧ '/' ∉ last.data)
    (hs : ∀ s ∈ segs, s.data ≠ [] ∧ '/' ∉ s.data) :
    deployModelTargetPath (mkS3Url bucket (segs ++ [last]))
      = String.mk ("s3://".data ++ joinSlash ((bucket :: segs).map String.data))
    ∧ ∀ (env : KnnEnv) (model : KeyedVectors) (k fd ss : Nat),
      (deploy_model env (mkS3Url bucket (segs ++ [last])) model k fd ss).1.head?
        = some (.createEstimator (String.mk ("s3://".data
            ++ joinSlash ((bucket :: segs).map String.data)))) := by
  have hmapeq : (segs ++ [last]).map String.data
      = segs.map String.data ++ [last.data] := by simp
  have hparts : ∀ p ∈ segs.map String.data ++ [last.data], p ≠ [] ∧ '/' ∉ p := by
    intro p hp
    rcases List.mem_append.mp hp with hp | hp
    · obtain ⟨s, hsmem, rfl⟩ := List.mem_map.mp hp
      exact hs s hsmem
    · rw [List.mem_singleton.mp hp]
      exact hl
  have hLdata : (mkS3Url bucket (segs ++ [last])).data
      = "s3://".data ++ (bucket.data
          ++ '/' :: joinSlash ((segs ++ [last]).map String.data)) := by
    unfold mkS3Url
    simp [List.append_assoc]
  have e1 : (mkS3Url bucket (segs ++ [last])).data.drop 5
      = bucket.data ++ '/' :: joinSlash ((segs ++ [last]).map String.data) := by
    rw [hLdata, show (5 : Nat) = "s3://".data.length from rfl, List.drop_left]
  have hblast : ∀ c, bucket.data.getLast? = some c → c ≠ '/' := by
    intro c hc hcon
    subst hcon
    exact hb.2 (mem_of_getLast_opt hc)
  have hmain : deployModelTargetPath (mkS3Url bucket (segs ++ [last]))
      = String.mk ("s3://".data ++ joinSlash ((bucket :: segs).map String.data)) := by
    simp only [deployModelTargetPath]
    rw [e1, takeWhile_until_slash _ _ hb.2, dropWhile_until_slash _ _ hb.2]
    rw [hmapeq, stripSlash_slash_joinSlash _ _ hparts]
    rw [splitOnChar_joinSlash _ (by simp) (fun p hp => (hparts p hp).2)]
    rw [List.dropLast_concat]
    rw [osPathJoin_eq_joinSlash (segs.map String.data) bucket.data hb.1 hblast
      (fun p hp => hparts p (List.mem_append_left _ hp))]
    simp
  exact ⟨hmain, fun env model k fd ss => by
    rw [deploy_knn_trace_head, hmain]⟩

theorem target_path_witness :
    deployModelTargetPath "s3://mybucket/data/runs/file.csv"
      = "s3://mybucket/data/runs" := by
  have h := (target_path_drops_last_component "mybucket" "file.csv" ["data", "runs"]
    (by decide) (by decide) (by decide)).1
  have e1 : mkS3Url "mybucket" (["data", "runs"] ++ ["file.csv"])
      = "s3://mybucket/data/runs/file.csv" := by decide
  have e2 : String.mk ("s3://".data
      ++ joinSlash (("mybucket" :: ["data", "runs"]).map String.data))
      = "s3://mybucket/data/runs" := by decide
  rw [e1, e2] at h
  exact h

end DeployModel
